import Mathlib

/-!
Verification of the evidently report/suite execution-and-snapshot engine.

The development shallowly embeds `src/evidently/report/report.py` (the
`Report` class: construction, `run`, `as_dict`, `as_pandas`,
`_get_snapshot`, `_parse_snapshot`) and
`src/evidently/experimental/monitors.py` (`load_time_series_data`,
`load_metric_time_series`).  Collaborator machinery that is not part of
the source tree (the `Suite`, `Context` and snapshot base classes from
`evidently.suite.base_suite`, the renderer registry, dataset
preprocessing) is modelled from the specification; every such
definition carries a doc comment starting with "Modelled from the
spec:".  Python dictionaries are modelled as insertion-ordered
association lists, Python exceptions as explicit error values.
-/

/-! ## Python dictionaries as insertion-ordered association lists -/

/-- Lookup in an insertion-ordered association list, the model of a
Python dictionary read `d[k]` / `d.get(k)`. -/
def dget? {K V : Type} [DecidableEq K] : List (K × V) → K → Option V
  | [], _ => none
  | p :: rest, k => if p.1 = k then some p.2 else dget? rest k

/-- Assignment `d[k] = v` on a Python dictionary: replaces the value of
an existing key in place, otherwise appends the new key at the end
(dictionaries preserve insertion order). -/
def dinsert {K V : Type} [DecidableEq K] : List (K × V) → K → V → List (K × V)
  | [], k, v => [(k, v)]
  | p :: rest, k, v => if p.1 = k then (k, v) :: rest else p :: dinsert rest k v

/-- The key sequence of a dictionary. -/
def dkeys {K V : Type} (d : List (K × V)) : List K := d.map Prod.fst

/-! ## Core data model -/

/-- The opaque value computed by one metric in one run.  Results are
external collaborators; only their identity matters here. -/
abbrev MetricResult := Nat

/-- A computational unit.  Its identity is the pair of its type tag
(`get_id`, here `mid`) and its constructor arguments; two structurally
equal metrics are the same check. -/
structure Metric where
  mid : String
  args : Nat
deriving DecidableEq, Repr

/-- A runtime object flowing through the expansion loop: either an
actual `Metric` or any other Python object (which the source detects
with `isinstance` checks where it checks at all). -/
inductive Element where
  | metric (m : Metric)
  | notMetric (tag : Nat)
deriving DecidableEq, Repr

/-- `metric.get_id()`: defined for metrics only; reading the identifier
of a non-metric object raises in Python, modelled as `none`. -/
def Element.get_id : Element → Option String
  | .metric m => some m.mid
  | .notMetric _ => none

/-- Modelled from the spec: the per-run memoization cache, a mapping
from unit identity to computed Result, together with the full ordered
unit list of the run. -/
structure Context where
  metrics : List Element
  results : List (Element × MetricResult)
deriving DecidableEq, Repr

/-- `metric.get_result()` for a metric bound to context `ctx`: the
stored result, `none` when no result has been computed. -/
def Context.getResult (ctx : Context) (e : Element) : Option MetricResult :=
  dget? ctx.results e

/-- Modelled from the spec: the Suite owns the ordered full unit list
and the Context. -/
structure Suite where
  metrics : List Element
  context : Context
deriving DecidableEq, Repr

/-- Modelled from the spec: `Suite.add_metric` registers a unit,
keeping insertion order; a unit appears at most once in the Suite's
list. -/
def Suite.add_metric (s : Suite) (e : Element) : Suite :=
  if e ∈ s.metrics then s else { s with metrics := s.metrics ++ [e] }

/-- Modelled from the spec: `Suite.reset` clears the Context and the
unit list; the unit list is then rebuilt by the expansion loop. -/
def Suite.reset (_s : Suite) : Suite := { metrics := [], context := ⟨[], []⟩ }

/-- A dataset, abstracted to its column description; datasets are
opaque tabular collaborators. -/
abbrev Data := List String

/-- Column-mapping configuration, opaque here; `None` defaults to
`ColumnMapping()`, modelled as `0`. -/
abbrev ColumnMapping := Nat

/-- The normalized dataset-column description handed to generators and
presets. -/
abbrev ColumnsInfo := List String

/-- Modelled from the spec: `process_columns` computes the normalized
column description of the current dataset once per run. -/
def process_columns (current : Data) (_cm : ColumnMapping) : ColumnsInfo := current

/-- The input-data argument shared by all units: reference dataset
(optional) and current dataset.  The derived data definition and
additional features are collaborator-computed and carry no observable
state of their own here. -/
structure InputData where
  reference : Option Data
  current : Data

/-- A metric generator (`BaseGenerator`): produces a list of elements
from the resolved column description.  `name` is the class name
recorded in provenance metadata. -/
structure BaseGenerator where
  name : String
  gen : ColumnsInfo → List Element

/-- One element of a preset's `generate_metrics` output: either a
nested generator (resolved immediately, one level of nesting only) or
a direct element. -/
inductive PresetItem where
  | gen (g : BaseGenerator)
  | elem (e : Element)

/-- A metric preset (`MetricPreset`): produces preset items from the
input data and column description.  `name` is the class name recorded
in provenance metadata. -/
structure MetricPreset where
  name : String
  generate_metrics : InputData → ColumnsInfo → List PresetItem

/-- One entry of the `metrics` configuration list passed to `Report`:
a metric, a preset, a generator, or any other object (rejected by the
final `else` branch of the expansion loop). -/
inductive ReportItem where
  | metric (m : Metric)
  | preset (p : MetricPreset)
  | generator (g : BaseGenerator)
  | other (tag : Nat)

/-- A metadata value: a plain string or a list of strings (the shape
used by the provenance records). -/
inductive MetaValue where
  | str (s : String)
  | strList (l : List String)
deriving DecidableEq, Repr

/-- `Report.metadata`, a string-keyed Python dictionary. -/
abbrev Metadata := List (String × MetaValue)

/-- The key under which generator provenance is recorded. -/
def METRIC_GENERATORS : String := "metric_generators"

/-- The key under which preset provenance is recorded. -/
def METRIC_PRESETS : String := "metric_presets"

/-- The `Report` object: configuration list, first-level unit list,
inner suite, and identification fields. -/
structure Report where
  metrics : List ReportItem
  firstLevelMetrics : List Element
  suite : Suite
  id : Nat
  timestamp : Int
  metadata : Metadata
  tags : List String
  options : Nat

/-- `Report.__init__`: stores the configuration, creates a fresh inner
suite and an empty first-level list; `metadata or \x7b\x7d` and
`tags or []` replace falsy (empty) arguments by fresh empty
containers.  The `id or uuid4()` / `timestamp or now()` defaults are
resolved by the caller (UUID and datetime objects are always truthy,
so a supplied value passes through unchanged). -/
def mkReport (metrics : List ReportItem) (options : Nat) (timestamp : Int)
    (id : Nat) (metadata : Metadata) (tags : List String) : Report :=
  { metrics := metrics
    firstLevelMetrics := []
    suite := ⟨[], ⟨[], []⟩⟩
    id := id
    timestamp := timestamp
    metadata := if metadata.isEmpty then [] else metadata
    tags := if tags.isEmpty then [] else tags
    options := options }

/-! ## The run loop (`Report.run`) -/

/-- The `ValueError`s raised by `Report.run`, one constructor per raise
site.  The spec's abstract taxonomy calls the first a
`ConfigurationError` and the second a `GenerationError`. -/
inductive RunError where
  | currentDataMissing
  | incorrectMetricTypeInGenerator (generatorName : String)
  | incorrectItem
deriving DecidableEq, Repr

/-- The mutable state threaded through the expansion loop:
`self._first_level_metrics`, `self._inner_suite` and `self.metadata`. -/
structure ExpState where
  firstLevel : List Element
  suite : Suite
  metadata : Metadata

/-- The paired appends performed for each accepted unit:
`self._first_level_metrics.append(metric)` and
`self._inner_suite.add_metric(metric)`. -/
def appendBoth (st : ExpState) (e : Element) : ExpState :=
  { st with firstLevel := st.firstLevel ++ [e], suite := st.suite.add_metric e }

/-- The provenance-recording steps: if the key is absent set it to an
empty list, then append the class name to the stored list.  (Appending
to a user-supplied non-list metadata value would raise in Python; that
unreachable-by-the-engine corner is modelled as leaving the value
unchanged.) -/
def metaRecordName (md : Metadata) (key : String) (name : String) : Metadata :=
  let md' := if (dget? md key).isSome then md else dinsert md key (.strList [])
  match dget? md' key with
  | some (.strList l) => dinsert md' key (.strList (l ++ [name]))
  | _ => md'

/-- The inner loop over one generator's output: each produced element
that is a `Metric` is appended to the first-level list and registered
with the Suite; the first element of any other type raises
`ValueError` immediately, keeping the state mutated so far. -/
def genLoop (gname : String) (st : ExpState) :
    List Element → ExpState × Option RunError
  | [] => (st, none)
  | .metric m :: rest => genLoop gname (appendBoth st (.metric m)) rest
  | .notMetric _ :: _ => (st, some (.incorrectMetricTypeInGenerator gname))

/-- Collecting one preset's `generate_metrics` output into a flat
element list: nested generators are resolved immediately (their output
extends the list with no type check), other items are appended
directly. -/
def presetCollect (cols : ColumnsInfo) : List PresetItem → List Element
  | [] => []
  | .gen g :: rest => g.gen cols ++ presetCollect cols rest
  | .elem e :: rest => e :: presetCollect cols rest

/-- Processing one entry of the configuration list, mirroring the four
`isinstance` branches of the expansion loop in `Report.run`. -/
def processItem (cols : ColumnsInfo) (data : InputData) (st : ExpState) :
    ReportItem → ExpState × Option RunError
  | .generator g =>
    match genLoop g.name st (g.gen cols) with
    | (st', none) =>
      ({ st' with metadata := metaRecordName st'.metadata METRIC_GENERATORS g.name }, none)
    | (st', some e) => (st', some e)
  | .preset p =>
    let ms := presetCollect cols (p.generate_metrics data cols)
    let st' := ms.foldl appendBoth st
    ({ st' with metadata := metaRecordName st'.metadata METRIC_PRESETS p.name }, none)
  | .metric m => (appendBoth st (.metric m), none)
  | .other _ => (st, some .incorrectItem)

/-- The expansion loop over the whole configuration list; the first
raised error aborts the loop with the state mutated so far. -/
def expandItems (cols : ColumnsInfo) (data : InputData) (st : ExpState) :
    List ReportItem → ExpState × Option RunError
  | [] => (st, none)
  | it :: rest =>
    match processItem cols data st it with
    | (st', none) => expandItems cols data st' rest
    | (st', some e) => (st', some e)

/-- Modelled from the spec: `Suite.run_calculate` computes every
registered unit exactly once via the Context; afterwards the Context
holds the full unit list and one Result per unit.  The unit
computation itself is an opaque collaborator, passed as `compute`. -/
def Suite.run_calculate (s : Suite) (compute : Element → InputData → MetricResult)
    (data : InputData) : Suite :=
  { s with context := ⟨s.metrics, s.metrics.map (fun e => (e, compute e data))⟩ }

/-- `Report.run`: defaults the column mapping, rejects an absent
current dataset before touching any state, resets the inner suite
(`Suite.verify` then re-checks inputs, a no-op here since presence was
just established), runs the expansion loop, and finally computes all
results.  Returns the mutated report together with the raised error,
if any.  Note that `_first_level_metrics` and `metadata` are *not*
cleared: the loop extends whatever they already hold. -/
def runReport (r : Report) (compute : Element → InputData → MetricResult)
    (reference_data : Option Data) (current_data : Option Data)
    (column_mapping : Option ColumnMapping) : Report × Option RunError :=
  let cm := column_mapping.getD 0
  match current_data with
  | none => (r, some .currentDataMissing)
  | some current =>
    let cols := process_columns current cm
    let data : InputData := ⟨reference_data, current⟩
    match expandItems cols data ⟨r.firstLevelMetrics, r.suite.reset, r.metadata⟩ r.metrics with
    | (st, some e) =>
      ({ r with firstLevelMetrics := st.firstLevel, suite := st.suite,
                metadata := st.metadata }, some e)
    | (st, none) =>
      ({ r with firstLevelMetrics := st.firstLevel,
                suite := st.suite.run_calculate compute data,
                metadata := st.metadata }, none)

/-! ## Read views (`as_dict`, `as_pandas`) -/

/-- The failures raised by the read views: a missing renderer for a
non-metric first-level entry (a fatal configuration error per the
renderer-registry contract), and the unknown-group `ValueError` of
`as_pandas` (the spec's LookupError-class "not found" failure). -/
inductive ReportError where
  | rendererNotFound
  | groupNotFound (group : String)
deriving DecidableEq, Repr

/-- Modelled from the spec: a metric's JSON renderer renders its stored
Result; rendering of a single result is an external collaborator, so a
rendered value is identified with the underlying Result. -/
def renderJson (ctx : Context) (e : Element) : Option MetricResult :=
  ctx.getResult e

/-- Exception-aware list comprehension: the model of
`[f(x) for x in l]` where `f` may raise. -/
def mapO {α β : Type} (f : α → Option β) : List α → Option (List β)
  | [] => some []
  | x :: rest =>
    match f x with
    | none => none
    | some y => (mapO f rest).map (y :: ·)

/-- The body of `Report.as_dict` as a function of the context and the
first-level list: one `(metric id, rendered result)` entry per
first-level unit, in first-level order; a non-metric entry makes the
renderer lookup fail. -/
def asDictCore (ctx : Context) (fl : List Element) :
    Option (List (String × Option MetricResult)) :=
  mapO (fun e =>
    match e with
    | .metric m => some (m.mid, renderJson ctx (.metric m))
    | .notMetric _ => none) fl

/-- `Report.as_dict` (with default include/exclude options). -/
def Report.as_dict (r : Report) : Option (List (String × Option MetricResult)) :=
  asDictCore r.suite.context r.firstLevelMetrics

/-- A pandas DataFrame, modelled as the list of its rows; a row
produced by a metric renderer carries the metric and its rendered
(stored) Result. -/
abbrev DataFrame := List (Element × Option MetricResult)

/-- Modelled from the spec: a metric's pandas renderer renders the
metric's stored Result as a one-row DataFrame. -/
def renderPandas (ctx : Context) (e : Element) : DataFrame :=
  [(e, ctx.getResult e)]

/-- `metrics[metric_id].append(df)` on a `defaultdict(list)`. -/
def dappend (d : List (String × List DataFrame)) (k : String) (v : DataFrame) :
    List (String × List DataFrame) :=
  dinsert d k ((dget? d k).getD [] ++ [v])

/-- The grouping loop of `Report.as_pandas`: for every first-level
unit, first look up its renderer (failing on a non-metric entry even
for units the group filter would skip), then skip units whose id is
not the requested group, and append the rendered DataFrame under the
unit's id. -/
def asPandasGroups (ctx : Context) (group : Option String) :
    List Element → List (String × List DataFrame) →
    Except ReportError (List (String × List DataFrame))
  | [], acc => .ok acc
  | e :: rest, acc =>
    match e with
    | .notMetric _ => .error .rendererNotFound
    | .metric m =>
      match group with
      | some g =>
        if m.mid = g then
          asPandasGroups ctx group rest (dappend acc m.mid (renderPandas ctx (.metric m)))
        else asPandasGroups ctx group rest acc
      | none =>
        asPandasGroups ctx group rest (dappend acc m.mid (renderPandas ctx (.metric m)))

/-- The value returned by `as_pandas`: a bare DataFrame or a dictionary
mapping metric ids to DataFrames. -/
inductive PandasOut where
  | single (df : DataFrame)
  | grouped (groups : List (String × DataFrame))
deriving DecidableEq, Repr

/-- The body of `Report.as_pandas` as a function of the context and the
first-level list: build the per-id groups, concatenate each group's
DataFrames, then return a bare DataFrame when no group was requested
and exactly one id is present, the whole dictionary when no group was
requested otherwise, and the requested group's DataFrame (or the
unknown-group error) when a group was requested. -/
def asPandasCore (ctx : Context) (fl : List Element) (group : Option String) :
    Except ReportError PandasOut :=
  match asPandasGroups ctx group fl [] with
  | .error e => .error e
  | .ok groups =>
    let result : List (String × DataFrame) := groups.map (fun p => (p.1, p.2.flatten))
    match group with
    | none =>
      if result.length = 1 then .ok (.single (result.headD ("", [])).2)
      else .ok (.grouped result)
    | some g =>
      match dget? result g with
      | none => .error (.groupNotFound g)
      | some df => .ok (.single df)

/-- `Report.as_pandas`. -/
def Report.as_pandas (r : Report) (group : Option String) :
    Except ReportError PandasOut :=
  asPandasCore r.suite.context r.firstLevelMetrics group

/-! ## Snapshot capture and restore -/

/-- The serialized suite inside a snapshot: the full ordered unit list
with each unit's stored Result. -/
structure SuitePayload where
  metrics : List Element
  results : List (Element × MetricResult)
deriving DecidableEq, Repr

/-- A persisted snapshot: identification fields, serialized suite, and
the first-level list as integer indices into the suite's unit list. -/
structure Snapshot where
  id : Nat
  timestamp : Int
  metadata : Metadata
  tags : List String
  options : Nat
  suite : SuitePayload
  metrics_ids : List Nat
deriving DecidableEq, Repr

/-- `list.index(x)`: the index of the first occurrence of an equal
element; raises `ValueError` (here `none`) when no element matches. -/
def pyIndex (l : List Element) (e : Element) : Option Nat :=
  match l with
  | [] => none
  | x :: rest => if x = e then some 0 else (pyIndex rest e).map (· + 1)

/-- `Report._get_snapshot`: the base snapshot (modelled from the spec:
`super()._get_snapshot()` captures id, timestamp, metadata, tags,
options and the Context's full unit list with its Results) extended
with `metrics_ids`, the `list.index` positions of the first-level
units inside the serialized unit list. -/
def Report.get_snapshot (r : Report) : Option Snapshot :=
  let payload : SuitePayload := ⟨r.suite.context.metrics, r.suite.context.results⟩
  (mapO (pyIndex payload.metrics) r.firstLevelMetrics).map (fun ids =>
    { id := r.id, timestamp := r.timestamp, metadata := r.metadata,
      tags := r.tags, options := r.options, suite := payload,
      metrics_ids := ids })

/-- Modelled from the spec: `snapshot.suite.to_context()` restores the
Context with the stored unit list and the stored Results already
populated (no recomputation). -/
def SuitePayload.to_context (p : SuitePayload) : Context :=
  ⟨p.metrics, p.results⟩

/-- A restored element viewed as a configuration entry for the
`Report` constructor. -/
def ReportItem.ofElement : Element → ReportItem
  | .metric m => .metric m
  | .notMetric t => .other t

/-- `Report._parse_snapshot`: rebuild the Context, dereference the
stored first-level indices (an out-of-range index raises, here `none`
— the corrupt-snapshot failure), construct a fresh report carrying
the stored identification fields, and install the dereferenced
first-level list and the restored context. -/
def Report.parse_snapshot (s : Snapshot) : Option Report :=
  let ctx := s.suite.to_context
  (mapO (fun i => ctx.metrics[i]?) s.metrics_ids).map (fun metrics =>
    let report := mkReport (metrics.map ReportItem.ofElement) s.options
      s.timestamp s.id s.metadata s.tags
    { report with firstLevelMetrics := metrics,
                  suite := { report.suite with context := ctx } })

/-! ## Time-series loading (`experimental/monitors.py`) -/

/-- Failures of the time-series loader: an unparseable snapshot file
fails the whole load, and reading a Result that was never stored
raises inside `get_result`. -/
inductive LoadError where
  | corruptSnapshot
  | missingResult
deriving DecidableEq, Repr

/-- `date_from is not None and timestamp < date_from`. -/
def skipLower (date_from : Option Int) (ts : Int) : Bool :=
  match date_from with
  | some d => decide (ts < d)
  | none => false

/-- `date_to is not None and timestamp > date_to`. -/
def skipUpper (date_to : Option Int) (ts : Int) : Bool :=
  match date_to with
  | some d => decide (d < ts)
  | none => false

/-- A timestamp survives the `load_time_series_data` filter: neither
skip condition fires, i.e. `date_from ≤ ts ≤ date_to` with an absent
bound unbounded on its side. -/
def inRange (date_from date_to : Option Int) (ts : Int) : Bool :=
  !(skipLower date_from ts) && !(skipUpper date_to ts)

/-- The directory loop of `load_time_series_data`: restore each listed
snapshot file (an unparseable file fails the whole load), drop the
ones outside the timestamp range, and assign the rest into the result
dictionary keyed by timestamp. -/
def loadLoop (date_from date_to : Option Int) (acc : List (Int × Report)) :
    List Snapshot → Except LoadError (List (Int × Report))
  | [] => .ok acc
  | file :: rest =>
    match Report.parse_snapshot file with
    | none => .error .corruptSnapshot
    | some suite =>
      if skipLower date_from suite.timestamp then loadLoop date_from date_to acc rest
      else if skipUpper date_to suite.timestamp then loadLoop date_from date_to acc rest
      else loadLoop date_from date_to (dinsert acc suite.timestamp suite) rest

/-- `load_time_series_data(path, Report, date_from, date_to)`, with the
directory listing supplied as the list of snapshot files. -/
def load_time_series_data (files : List Snapshot) (date_from date_to : Option Int) :
    Except LoadError (List (Int × Report)) :=
  loadLoop date_from date_to [] files

/-- The nested result dictionary of `load_metric_time_series`:
`metric → timestamp → Result`. -/
abbrev SeriesDict := List (Element × List (Int × MetricResult))

/-- `result[metric][timestamp] = v` on a `defaultdict(dict)`. -/
def dinsert2 (d : SeriesDict) (m : Element) (ts : Int) (v : MetricResult) :
    SeriesDict :=
  dinsert d m (dinsert ((dget? d m).getD []) ts v)

/-- Lookup in the nested result dictionary. -/
def dget2? (d : SeriesDict) (m : Element) (ts : Int) : Option MetricResult :=
  (dget? d m).bind (fun inner => dget? inner ts)

/-- The inner loop of the unfiltered branch: for one loaded report,
record every first-level unit's `get_result()` (each unit reads the
Result from its own report's restored context) under that report's
timestamp. -/
def seriesAllLoop (ts : Int) (ctx : Context) (acc : SeriesDict) :
    List Element → Except LoadError SeriesDict
  | [] => .ok acc
  | e :: rest =>
    match ctx.getResult e with
    | none => .error .missingResult
    | some v => seriesAllLoop ts ctx (dinsert2 acc e ts v) rest

/-- The outer loop of the unfiltered branch, over the loaded reports in
dictionary order. -/
def seriesAllReports (acc : SeriesDict) :
    List (Int × Report) → Except LoadError SeriesDict
  | [] => .ok acc
  | (ts, rep) :: rest =>
    match seriesAllLoop ts rep.suite.context acc rep.firstLevelMetrics with
    | .error e => .error e
    | .ok acc' => seriesAllReports acc' rest

/-- The inner loop of the filtered branch: for one requested metric,
scan the loaded reports; whenever the metric occurs (by identity) in a
report's first-level list, rebind the metric's context to that report
(`metric.set_context`) and record its `get_result()` — i.e. that
report's stored Result for the metric — under the report's
timestamp. -/
def seriesFilterLoop (m : Element) (acc : SeriesDict) :
    List (Int × Report) → Except LoadError SeriesDict
  | [] => .ok acc
  | (ts, rep) :: rest =>
    if m ∈ rep.firstLevelMetrics then
      match rep.suite.context.getResult m with
      | none => .error .missingResult
      | some v => seriesFilterLoop m (dinsert2 acc m ts v) rest
    else seriesFilterLoop m acc rest

/-- The outer loop of the filtered branch, over the requested metrics. -/
def seriesFilterMetrics (reports : List (Int × Report)) (acc : SeriesDict) :
    List Element → Except LoadError SeriesDict
  | [] => .ok acc
  | m :: rest =>
    match seriesFilterLoop m acc reports with
    | .error e => .error e
    | .ok acc' => seriesFilterMetrics reports acc' rest

/-- `load_metric_time_series(path, date_from, date_to, metrics)`. -/
def load_metric_time_series (files : List Snapshot) (date_from date_to : Option Int)
    (metrics : Option (List Element)) : Except LoadError SeriesDict :=
  match load_time_series_data files date_from date_to with
  | .error e => .error e
  | .ok reports =>
    match metrics with
    | none => seriesAllReports [] reports
    | some ms => seriesFilterMetrics reports [] ms

/-! ## Derived notions used by the statements -/

/-- Recognizes the missing-current-dataset error among run outcomes. -/
def isCurrentMissing : Option RunError → Bool
  | some .currentDataMissing => true
  | _ => false

/-- The last element of a file list satisfying a predicate: later
directory entries overwrite earlier ones in the timestamp-keyed result
dictionary. -/
def lastMatch (p : Snapshot → Bool) : List Snapshot → Option Snapshot
  | [] => none
  | s :: rest =>
    match lastMatch p rest with
    | some x => some x
    | none => if p s then some s else none

/-- The snapshot file restores to a report that survives the range
filter and carries the given timestamp. -/
def matchAt (date_from date_to : Option Int) (ts : Int) (s : Snapshot) : Bool :=
  match Report.parse_snapshot s with
  | some rep => inRange date_from date_to rep.timestamp && decide (rep.timestamp = ts)
  | none => false

/-- First-occurrence deduplication, the key order of a dictionary
populated by repeated assignment. -/
def dedupFirstAux (seen : List String) : List String → List String
  | [] => seen
  | x :: rest =>
    if x ∈ seen then dedupFirstAux seen rest else dedupFirstAux (seen ++ [x]) rest

/-- The distinct first-level metric identifiers of a report, in
first-occurrence order. -/
def distinctIds (r : Report) : List String :=
  dedupFirstAux [] (r.firstLevelMetrics.filterMap Element.get_id)

/-- The rendered table of one metric-id group: the concatenation of the
one-row DataFrames of the first-level units carrying that id, in
first-level order. -/
def groupTable (ctx : Context) (fl : List Element) (g : String) : DataFrame :=
  (fl.filter (fun e => decide (Element.get_id e = some g))).map
    (fun e => (e, ctx.getResult e))

/-! ## Concrete instances for the closed statements -/

/-- An opaque unit computation for the concrete runs below. -/
def fixCompute : Element → InputData → MetricResult := fun _ _ => 42

/-- A first concrete metric, wrapped as an element. -/
def elemA : Element := .metric ⟨"MetricA", 0⟩

/-- A second concrete metric, wrapped as an element. -/
def elemB : Element := .metric ⟨"MetricB", 0⟩

/-- A generator that yields one valid metric and then a non-metric
object. -/
def c3Gen : BaseGenerator := ⟨"BadGen", fun _ => [.metric ⟨"UnitB", 0⟩, .notMetric 0]⟩

/-- Running a fresh report configured with the faulty generator. -/
def c3Out : Report × Option RunError :=
  runReport (mkReport [.generator c3Gen] 0 0 0 [] []) fixCompute none (some ["c"]) none

/-- A preset emitting one metric, for the re-run scenario. -/
def c8Preset : MetricPreset :=
  ⟨"DriftPreset", fun _ _ => [.elem (.metric ⟨"DriftMetric", 0⟩)]⟩

/-- The report after its first run. -/
def c8Run1 : Report :=
  (runReport (mkReport [.preset c8Preset] 0 0 0 [] []) fixCompute none (some ["age"]) none).1

/-- The same report instance after a second, identical run. -/
def c8Run2 : Report :=
  (runReport c8Run1 fixCompute none (some ["age"]) none).1

/-- A report with an empty configuration after a completed run. -/
def c9EmptyRun : Report :=
  (runReport (mkReport [] 0 0 0 [] []) fixCompute none (some ["c"]) none).1

/-- A report whose single first-level unit carries one identifier. -/
def c9Rep : Report :=
  { metrics := []
    firstLevelMetrics := [elemA]
    suite := ⟨[elemA], ⟨[elemA], [(elemA, 10)]⟩⟩
    id := 0
    timestamp := 0
    metadata := []
    tags := []
    options := 0 }

/-- A report with two first-level units of distinct identifiers. -/
def c7Rep : Report :=
  { metrics := []
    firstLevelMetrics := [elemA, elemB]
    suite := ⟨[elemA, elemB], ⟨[elemA, elemB], [(elemA, 10), (elemB, 20)]⟩⟩
    id := 0
    timestamp := 0
    metadata := []
    tags := []
    options := 0 }

/-- A snapshot at timestamp 5 exposing `elemA` first-level while its
full unit list also holds `elemB` as an internal unit with a stored
result. -/
def c6Snap : Snapshot :=
  { id := 1
    timestamp := 5
    metadata := []
    tags := []
    options := 0
    suite := ⟨[elemA, elemB], [(elemA, 10), (elemB, 20)]⟩
    metrics_ids := [0] }

/-- A snapshot at timestamp 5 exposing `elemA`. -/
def snapEarly : Snapshot :=
  { id := 2
    timestamp := 5
    metadata := []
    tags := []
    options := 0
    suite := ⟨[elemA], [(elemA, 10)]⟩
    metrics_ids := [0] }

/-- A snapshot at timestamp 8 exposing `elemA`. -/
def snapLate : Snapshot :=
  { id := 3
    timestamp := 8
    metadata := []
    tags := []
    options := 0
    suite := ⟨[elemA], [(elemA, 30)]⟩
    metrics_ids := [0] }

/-- A second snapshot file carrying the same timestamp 5, exposing
`elemB`. -/
def snapDup : Snapshot :=
  { id := 4
    timestamp := 5
    metadata := []
    tags := []
    options := 0
    suite := ⟨[elemB], [(elemB, 99)]⟩
    metrics_ids := [0] }

/-- A generator yielding a list of metrics, then a non-metric object,
then arbitrary further elements. -/
def c3GenOf (gname : String) (ms : List Metric) (t : Nat) (rest : List Element) :
    BaseGenerator :=
  ⟨gname, fun _ => ms.map Element.metric ++ Element.notMetric t :: rest⟩

/-- A fresh report configured with a single such generator. -/
def c3ReportOf (gname : String) (ms : List Metric) (t : Nat) (rest : List Element)
    (opts : Nat) (tsv : Int) (idn : Nat) (md : Metadata) (tags : List String) : Report :=
  mkReport [.generator (c3GenOf gname ms t rest)] opts tsv idn md tags

/-- A fresh report configured with a bare unit followed by a preset
that emits two units. -/
def c4Report (mA mB mC : Metric) (pname : String) : Report :=
  mkReport
    [.metric mA,
     .preset ⟨pname, fun _ _ => [.elem (.metric mB), .elem (.metric mC)]⟩]
    0 0 0 [] []


/-! ## Dictionary lemmas -/

theorem obind_some {α β : Type} (a : α) (f : α → Option β) : (some a).bind f = f a := rfl

theorem dget?_dinsert_self {K V : Type} [DecidableEq K] (d : List (K × V)) (k : K) (v : V) :
    dget? (dinsert d k v) k = some v := by
  induction d with
  | nil => simp [dinsert, dget?]
  | cons p rest ih =>
    simp only [dinsert]
    by_cases hp : p.1 = k
    · rw [if_pos hp]
      simp [dget?]
    · rw [if_neg hp]
      simp [dget?, hp, ih]

theorem dget?_dinsert_ne {K V : Type} [DecidableEq K] (d : List (K × V)) (k k' : K) (v : V)
    (h : k' ≠ k) : dget? (dinsert d k v) k' = dget? d k' := by
  induction d with
  | nil =>
    simp only [dinsert, dget?]
    rw [if_neg (Ne.symm h)]
  | cons p rest ih =>
    simp only [dinsert]
    by_cases hp : p.1 = k
    · rw [if_pos hp]
      simp only [dget?]
      rw [if_neg (Ne.symm h), hp, if_neg (Ne.symm h)]
    · rw [if_neg hp]
      simp only [dget?]
      by_cases hp' : p.1 = k'
      · rw [if_pos hp', if_pos hp']
      · rw [if_neg hp', if_neg hp', ih]

theorem dkeys_dinsert {K V : Type} [DecidableEq K] (d : List (K × V)) (k : K) (v : V) :
    dkeys (dinsert d k v) =
      if (dget? d k).isSome then dkeys d else dkeys d ++ [k] := by
  induction d with
  | nil => simp [dinsert, dget?, dkeys]
  | cons p rest ih =>
    simp only [dinsert]
    by_cases hp : p.1 = k
    · rw [if_pos hp]
      have hs : (dget? (p :: rest) k).isSome := by simp [dget?, hp]
      rw [if_pos hs]
      simp [dkeys, hp]
    · rw [if_neg hp]
      have hd : dget? (p :: rest) k = dget? rest k := by simp [dget?, hp]
      rw [hd]
      simp only [dkeys, List.map_cons] at ih ⊢
      rw [ih]
      by_cases hr : (dget? rest k).isSome
      · rw [if_pos hr, if_pos hr]
      · rw [if_neg hr, if_neg hr]
        simp

theorem dget?_isSome_iff {K V : Type} [DecidableEq K] (d : List (K × V)) (k : K) :
    (dget? d k).isSome ↔ k ∈ dkeys d := by
  induction d with
  | nil => simp [dget?, dkeys]
  | cons p rest ih =>
    simp only [dget?, dkeys, List.map_cons, List.mem_cons]
    by_cases hp : p.1 = k
    · simp [hp]
    · rw [if_neg hp]
      rw [dkeys] at ih
      simp [ih, Ne.symm hp]

theorem eq_nil_of_dget?_eq_none {K V : Type} [DecidableEq K] (d : List (K × V))
    (h : ∀ k, dget? d k = none) : d = [] := by
  cases d with
  | nil => rfl
  | cons p rest =>
    have := h p.1
    simp [dget?] at this

theorem dget2?_nil (m : Element) (ts : Int) : dget2? [] m ts = none := rfl

theorem dget2?_dinsert2 (d : SeriesDict) (m m' : Element) (ts ts' : Int) (v : MetricResult) :
    dget2? (dinsert2 d m ts v) m' ts' =
      if m' = m ∧ ts' = ts then some v else dget2? d m' ts' := by
  unfold dget2? dinsert2
  by_cases hm : m' = m
  · subst hm
    rw [dget?_dinsert_self, obind_some]
    by_cases hts : ts' = ts
    · subst hts
      simp [dget?_dinsert_self]
    · rw [dget?_dinsert_ne _ _ _ _ hts]
      simp only [hts, and_false, if_false]
      cases hdm : dget? d m' with
      | none => simp [dget?]
      | some inner => simp
  · rw [dget?_dinsert_ne _ _ _ _ hm]
    simp [hm]

/-! ## Expansion-loop lemmas -/

theorem add_metric_mem_self (s : Suite) (e : Element) : e ∈ (s.add_metric e).metrics := by
  unfold Suite.add_metric
  by_cases h : e ∈ s.metrics
  · rw [if_pos h]; exact h
  · rw [if_neg h]; simp

theorem add_metric_mono (s : Suite) (e x : Element) (h : x ∈ s.metrics) :
    x ∈ (s.add_metric e).metrics := by
  unfold Suite.add_metric
  by_cases he : e ∈ s.metrics
  · rw [if_pos he]; exact h
  · rw [if_neg he]; simp [h]

theorem appendBoth_firstLevel (st : ExpState) (e : Element) :
    (appendBoth st e).firstLevel = st.firstLevel ++ [e] := rfl

theorem appendBoth_metadata (st : ExpState) (e : Element) :
    (appendBoth st e).metadata = st.metadata := rfl

theorem foldl_appendBoth_firstLevel (ms : List Element) :
    ∀ st : ExpState, (ms.foldl appendBoth st).firstLevel = st.firstLevel ++ ms := by
  induction ms with
  | nil => intro st; simp
  | cons e rest ih =>
    intro st
    simp only [List.foldl_cons]
    rw [ih, appendBoth_firstLevel, List.append_assoc]
    rfl

theorem foldl_appendBoth_metadata (ms : List Element) :
    ∀ st : ExpState, (ms.foldl appendBoth st).metadata = st.metadata := by
  induction ms with
  | nil => intro st; rfl
  | cons e rest ih =>
    intro st
    simp only [List.foldl_cons]
    rw [ih, appendBoth_metadata]

theorem foldl_appendBoth_suite_mono (ms : List Element) :
    ∀ st : ExpState, ∀ x ∈ st.suite.metrics, x ∈ (ms.foldl appendBoth st).suite.metrics := by
  induction ms with
  | nil => intro st x hx; exact hx
  | cons e rest ih =>
    intro st x hx
    simp only [List.foldl_cons]
    exact ih _ x (add_metric_mono _ _ _ hx)

theorem foldl_appendBoth_suite_mem (ms : List Element) :
    ∀ st : ExpState, ∀ e ∈ ms, e ∈ (ms.foldl appendBoth st).suite.metrics := by
  induction ms with
  | nil => intro st e he; cases he
  | cons x rest ih =>
    intro st e he
    simp only [List.foldl_cons]
    rcases List.mem_cons.mp he with h | h
    · subst h
      exact foldl_appendBoth_suite_mono rest _ e (add_metric_mem_self _ _)
    · exact ih _ e h

theorem genLoop_invariant (gname : String) (elems : List Element) :
    ∀ st st' err, genLoop gname st elems = (st', err) →
      (∃ ext, st'.firstLevel = st.firstLevel ++ ext ∧
        (∀ e ∈ ext, e ∈ st'.suite.metrics)) ∧
      st'.metadata = st.metadata ∧
      (∀ x ∈ st.suite.metrics, x ∈ st'.suite.metrics) := by
  induction elems with
  | nil =>
    intro st st' err h
    simp only [genLoop] at h
    cases h
    exact ⟨⟨[], by simp, by intro e he; cases he⟩, rfl, fun x hx => hx⟩
  | cons e rest ih =>
    intro st st' err h
    cases e with
    | metric m =>
      simp only [genLoop] at h
      obtain ⟨⟨ext, hfl, hmem⟩, hmd, hmono⟩ := ih _ _ _ h
      refine ⟨⟨Element.metric m :: ext, ?_, ?_⟩, hmd, ?_⟩
      · rw [hfl, appendBoth_firstLevel, List.append_assoc]
        rfl
      · intro x hx
        rcases List.mem_cons.mp hx with hh | hh
        · subst hh
          exact hmono _ (add_metric_mem_self _ _)
        · exact hmem _ hh
      · intro x hx
        exact hmono _ (add_metric_mono _ _ _ hx)
    | notMetric t =>
      simp only [genLoop] at h
      cases h
      exact ⟨⟨[], by simp, by intro e he; cases he⟩, rfl, fun x hx => hx⟩

theorem genLoop_not_currentMissing (gname : String) (elems : List Element) :
    ∀ st, isCurrentMissing (genLoop gname st elems).2 = false := by
  induction elems with
  | nil => intro st; rfl
  | cons e rest ih =>
    intro st
    cases e with
    | metric m => simp only [genLoop]; exact ih _
    | notMetric t => rfl

theorem processItem_invariant (cols : ColumnsInfo) (data : InputData) (st : ExpState)
    (item : ReportItem) (st' : ExpState) (err : Option RunError)
    (h : processItem cols data st item = (st', err)) :
    (∃ ext, st'.firstLevel = st.firstLevel ++ ext ∧ (∀ e ∈ ext, e ∈ st'.suite.metrics)) ∧
    (∀ x ∈ st.suite.metrics, x ∈ st'.suite.metrics) := by
  cases item with
  | metric m =>
    simp only [processItem] at h
    cases h
    refine ⟨⟨[Element.metric m], rfl, ?_⟩, ?_⟩
    · intro e he
      rcases List.mem_singleton.mp he with rfl
      exact add_metric_mem_self _ _
    · intro x hx
      exact add_metric_mono _ _ _ hx
  | preset p =>
    simp only [processItem] at h
    cases h
    refine ⟨⟨presetCollect cols (p.generate_metrics data cols), ?_, ?_⟩, ?_⟩
    · exact foldl_appendBoth_firstLevel _ _
    · intro e he
      exact foldl_appendBoth_suite_mem _ _ e he
    · intro x hx
      exact foldl_appendBoth_suite_mono _ _ x hx
  | generator g =>
    simp only [processItem] at h
    rcases hg : genLoop g.name st (g.gen cols) with ⟨stg, errg⟩
    rw [hg] at h
    obtain ⟨⟨ext, hfl, hmem⟩, _, hmono⟩ := genLoop_invariant g.name (g.gen cols) st stg errg hg
    cases errg with
    | none =>
      cases h
      exact ⟨⟨ext, hfl, hmem⟩, hmono⟩
    | some e =>
      cases h
      exact ⟨⟨ext, hfl, hmem⟩, hmono⟩
  | other t =>
    simp only [processItem] at h
    cases h
    exact ⟨⟨[], by simp, by intro e he; cases he⟩, fun x hx => hx⟩

theorem processItem_not_currentMissing (cols : ColumnsInfo) (data : InputData)
    (st : ExpState) (item : ReportItem) :
    isCurrentMissing (processItem cols data st item).2 = false := by
  cases item with
  | metric m => rfl
  | preset p => rfl
  | generator g =>
    simp only [processItem]
    rcases hg : genLoop g.name st (g.gen cols) with ⟨stg, errg⟩
    have := genLoop_not_currentMissing g.name (g.gen cols) st
    rw [hg] at this
    cases errg with
    | none => rfl
    | some e => exact this
  | other t => rfl

theorem expandItems_invariant (cols : ColumnsInfo) (data : InputData)
    (items : List ReportItem) :
    ∀ st st' err, expandItems cols data st items = (st', err) →
      (∃ ext, st'.firstLevel = st.firstLevel ++ ext ∧ (∀ e ∈ ext, e ∈ st'.suite.metrics)) ∧
      (∀ x ∈ st.suite.metrics, x ∈ st'.suite.metrics) := by
  induction items with
  | nil =>
    intro st st' err h
    simp only [expandItems] at h
    cases h
    exact ⟨⟨[], by simp, by intro e he; cases he⟩, fun x hx => hx⟩
  | cons it rest ih =>
    intro st st' err h
    simp only [expandItems] at h
    rcases hp : processItem cols data st it with ⟨stp, errp⟩
    rw [hp] at h
    obtain ⟨⟨ext₁, hfl₁, hmem₁⟩, hmono₁⟩ := processItem_invariant cols data st it stp errp hp
    cases errp with
    | none =>
      obtain ⟨⟨ext₂, hfl₂, hmem₂⟩, hmono₂⟩ := ih _ _ _ h
      refine ⟨⟨ext₁ ++ ext₂, ?_, ?_⟩, ?_⟩
      · rw [hfl₂, hfl₁, List.append_assoc]
      · intro e he
        rcases List.mem_append.mp he with hh | hh
        · exact hmono₂ _ (hmem₁ _ hh)
        · exact hmem₂ _ hh
      · intro x hx
        exact hmono₂ _ (hmono₁ _ hx)
    | some e =>
      cases h
      exact ⟨⟨ext₁, hfl₁, hmem₁⟩, hmono₁⟩

theorem expandItems_not_currentMissing (cols : ColumnsInfo) (data : InputData)
    (items : List ReportItem) :
    ∀ st, isCurrentMissing (expandItems cols data st items).2 = false := by
  induction items with
  | nil => intro st; rfl
  | cons it rest ih =>
    intro st
    simp only [expandItems]
    rcases hp : processItem cols data st it with ⟨stp, errp⟩
    have := processItem_not_currentMissing cols data st it
    rw [hp] at this
    cases errp with
    | none => exact ih _
    | some e => exact this

/-! ## Unfolding lemmas for runReport -/

theorem runReport_error_state (r : Report) (compute : Element → InputData → MetricResult)
    (ref : Option Data) (cur : Data) (cm : Option ColumnMapping) (st : ExpState)
    (e : RunError)
    (hx : expandItems (process_columns cur (cm.getD 0)) ⟨ref, cur⟩
        ⟨r.firstLevelMetrics, r.suite.reset, r.metadata⟩ r.metrics = (st, some e)) :
    runReport r compute ref (some cur) cm =
      ({ r with
          firstLevelMetrics := st.firstLevel
          suite := st.suite
          metadata := st.metadata }, some e) := by
  simp only [runReport]
  rw [hx]

theorem runReport_ok_state (r : Report) (compute : Element → InputData → MetricResult)
    (ref : Option Data) (cur : Data) (cm : Option ColumnMapping) (st : ExpState)
    (hx : expandItems (process_columns cur (cm.getD 0)) ⟨ref, cur⟩
        ⟨r.firstLevelMetrics, r.suite.reset, r.metadata⟩ r.metrics = (st, none)) :
    runReport r compute ref (some cur) cm =
      ({ r with
          firstLevelMetrics := st.firstLevel
          suite := st.suite.run_calculate compute ⟨ref, cur⟩
          metadata := st.metadata }, none) := by
  simp only [runReport]
  rw [hx]

/-! ## Claims about the run protocol -/

theorem genLoop_prefix_bad (gname : String) (t : Nat) (rest : List Element) :
    ∀ (ms : List Metric) (st : ExpState),
      genLoop gname st (ms.map Element.metric ++ Element.notMetric t :: rest) =
        ((ms.map Element.metric).foldl appendBoth st,
          some (.incorrectMetricTypeInGenerator gname)) := by
  intro ms
  induction ms with
  | nil => intro st; rfl
  | cons m ms' ih =>
    intro st
    simp only [List.map_cons, List.cons_append, genLoop, List.foldl_cons]
    exact ih _

/-- C2: running a report with an absent current dataset fails with the
missing-current-dataset error, leaving the report untouched, while
running with a present current dataset never raises that error. -/
theorem c2_run_requires_current_data (r : Report)
    (compute : Element → InputData → MetricResult)
    (reference_data : Option Data) (column_mapping : Option ColumnMapping) :
    runReport r compute reference_data none column_mapping =
      (r, some .currentDataMissing) ∧
    ∀ current : Data,
      isCurrentMissing
        (runReport r compute reference_data (some current) column_mapping).2 = false := by
  refine ⟨rfl, ?_⟩
  intro current
  simp only [runReport]
  rcases hx : expandItems (process_columns current (column_mapping.getD 0))
      ⟨reference_data, current⟩ ⟨r.firstLevelMetrics, r.suite.reset, r.metadata⟩ r.metrics
    with ⟨st, err⟩
  have hnc := expandItems_not_currentMissing (process_columns current (column_mapping.getD 0))
      ⟨reference_data, current⟩ r.metrics ⟨r.firstLevelMetrics, r.suite.reset, r.metadata⟩
  rw [hx] at hnc
  cases err with
  | none => rfl
  | some e => exact hnc

/-- C2 witness at a concrete report and dataset. -/
theorem c2_run_requires_current_data_witness :
    runReport (mkReport [.metric ⟨"MetricA", 0⟩] 0 0 0 [] []) fixCompute none none none =
      (mkReport [.metric ⟨"MetricA", 0⟩] 0 0 0 [] [], some .currentDataMissing) ∧
    isCurrentMissing
      (runReport (mkReport [.metric ⟨"MetricA", 0⟩] 0 0 0 [] []) fixCompute none
        (some ["age"]) none).2 = false :=
  ⟨(c2_run_requires_current_data _ fixCompute none none).1,
   (c2_run_requires_current_data _ fixCompute none none).2 ["age"]⟩

/-- C3 counterexample: a generator yields a valid metric and then a
non-metric element; the run fails, but the unit produced before the
invalid element remains in the first-level list and registered with
the Suite — the expansion is not atomic. -/
theorem c3_counterexample_partial_kept :
    c3Out.2 = some (.incorrectMetricTypeInGenerator "BadGen") ∧
    c3Out.1.firstLevelMetrics = [.metric ⟨"UnitB", 0⟩] ∧
    c3Out.1.suite.metrics = [.metric ⟨"UnitB", 0⟩] :=
  ⟨rfl, rfl, rfl⟩

/-- C3 amended: for a fresh report configured with one generator whose
output is a metric prefix followed by a non-metric element, the run
fails with the generator error, the prefix metrics are kept in the
first-level list and registered with the Suite, and no provenance is
recorded for the failing generator. -/
theorem c3_generator_failure_keeps_emitted (gname : String) (ms : List Metric) (t : Nat)
    (rest : List Element) (opts : Nat) (tsv : Int) (idn : Nat) (md : Metadata)
    (tags : List String) (compute : Element → InputData → MetricResult)
    (ref : Option Data) (cur : Data) (cm : Option ColumnMapping) :
    (runReport (c3ReportOf gname ms t rest opts tsv idn md tags) compute ref
        (some cur) cm).2 = some (.incorrectMetricTypeInGenerator gname) ∧
    (runReport (c3ReportOf gname ms t rest opts tsv idn md tags) compute ref
        (some cur) cm).1.firstLevelMetrics = ms.map Element.metric ∧
    (∀ m ∈ ms, Element.metric m ∈
      (runReport (c3ReportOf gname ms t rest opts tsv idn md tags) compute ref
        (some cur) cm).1.suite.metrics) ∧
    (runReport (c3ReportOf gname ms t rest opts tsv idn md tags) compute ref
        (some cur) cm).1.metadata =
      (c3ReportOf gname ms t rest opts tsv idn md tags).metadata := by
  have hgen : ∀ st : ExpState,
      processItem (process_columns cur (cm.getD 0)) ⟨ref, cur⟩ st
        (.generator (c3GenOf gname ms t rest)) =
      ((ms.map Element.metric).foldl appendBoth st,
        some (.incorrectMetricTypeInGenerator gname)) := by
    intro st
    simp only [processItem, c3GenOf]
    rw [genLoop_prefix_bad]
  have hexpAll : ∀ st : ExpState,
      expandItems (process_columns cur (cm.getD 0)) ⟨ref, cur⟩ st
        [.generator (c3GenOf gname ms t rest)] =
      ((ms.map Element.metric).foldl appendBoth st,
        some (.incorrectMetricTypeInGenerator gname)) := by
    intro st
    simp only [expandItems]
    rw [hgen]
  have hrun := runReport_error_state (c3ReportOf gname ms t rest opts tsv idn md tags)
    compute ref cur cm _ _ (hexpAll _)
  rw [hrun]
  refine ⟨rfl, ?_, ?_, ?_⟩
  · show ((ms.map Element.metric).foldl appendBoth _).firstLevel = ms.map Element.metric
    rw [foldl_appendBoth_firstLevel]
    simp [c3ReportOf, mkReport]
  · intro m hm
    exact foldl_appendBoth_suite_mem _ _ _ (List.mem_map_of_mem Element.metric hm)
  · show ((ms.map Element.metric).foldl appendBoth _).metadata = _
    rw [foldl_appendBoth_metadata]

/-- C3 witness for the amended statement, at a concrete generator. -/
theorem c3_generator_failure_witness :
    (runReport (c3ReportOf "BadGen" [⟨"UnitB", 0⟩] 0 [] 0 0 0 [] []) fixCompute none
        (some ["c"]) none).2 = some (.incorrectMetricTypeInGenerator "BadGen") ∧
    (runReport (c3ReportOf "BadGen" [⟨"UnitB", 0⟩] 0 [] 0 0 0 [] []) fixCompute none
        (some ["c"]) none).1.firstLevelMetrics = [.metric ⟨"UnitB", 0⟩] ∧
    Element.metric ⟨"UnitB", 0⟩ ∈
      (runReport (c3ReportOf "BadGen" [⟨"UnitB", 0⟩] 0 [] 0 0 0 [] []) fixCompute none
        (some ["c"]) none).1.suite.metrics := by
  obtain ⟨h1, h2, h3, h4⟩ := c3_generator_failure_keeps_emitted "BadGen" [⟨"UnitB", 0⟩] 0 []
    0 0 0 [] [] fixCompute none ["c"] none
  exact ⟨h1, h2, h3 ⟨"UnitB", 0⟩ (by decide)⟩

/-- C4: a configuration of a bare unit followed by a preset emitting
two units expands, on a successful run, to the three units first-level
in concatenation order, and records the preset name in the
metric-preset provenance list of the metadata. -/
theorem c4_preset_expansion (mA mB mC : Metric) (pname : String)
    (compute : Element → InputData → MetricResult) (ref : Option Data) (cur : Data)
    (cm : Option ColumnMapping) :
    (runReport (c4Report mA mB mC pname) compute ref (some cur) cm).2 = none ∧
    (runReport (c4Report mA mB mC pname) compute ref (some cur) cm).1.firstLevelMetrics =
      [.metric mA, .metric mB, .metric mC] ∧
    dget? (runReport (c4Report mA mB mC pname) compute ref (some cur) cm).1.metadata
      METRIC_PRESETS = some (.strList [pname]) :=
  ⟨rfl, rfl, rfl⟩

/-- C8: the code bug at a concrete input — re-running the same report
instance with the same configuration and data doubles the first-level
list and the preset provenance record, because `run` never clears
`_first_level_metrics` or the provenance lists. -/
theorem c8_rerun_accumulates_duplicates :
    c8Run1.firstLevelMetrics = [.metric ⟨"DriftMetric", 0⟩] ∧
    dget? c8Run1.metadata METRIC_PRESETS = some (.strList ["DriftPreset"]) ∧
    c8Run2.firstLevelMetrics = [.metric ⟨"DriftMetric", 0⟩, .metric ⟨"DriftMetric", 0⟩] ∧
    dget? c8Run2.metadata METRIC_PRESETS =
      some (.strList ["DriftPreset", "DriftPreset"]) :=
  ⟨rfl, rfl, rfl, rfl⟩

/-! ## Snapshot round-trip lemmas and C1 -/

theorem pyIndex_get (e : Element) : ∀ (l : List Element) (i : Nat),
    pyIndex l e = some i → l[i]? = some e := by
  intro l
  induction l with
  | nil => intro i h; simp [pyIndex] at h
  | cons x rest ih =>
    intro i h
    simp only [pyIndex] at h
    by_cases hx : x = e
    · rw [if_pos hx] at h
      cases h
      simp [hx]
    · rw [if_neg hx] at h
      cases hj : pyIndex rest e with
      | none => rw [hj] at h; simp at h
      | some j =>
        rw [hj] at h
        simp only [Option.map_some'] at h
        cases h
        rw [List.getElem?_cons_succ]
        exact ih j hj

theorem pyIndex_isSome (e : Element) : ∀ l : List Element, e ∈ l → (pyIndex l e).isSome := by
  intro l
  induction l with
  | nil => intro h; cases h
  | cons x rest ih =>
    intro h
    simp only [pyIndex]
    by_cases hx : x = e
    · rw [if_pos hx]; rfl
    · rw [if_neg hx]
      rcases List.mem_cons.mp h with hh | hh
      · exact absurd hh.symm hx
      · have hs := ih hh
        cases hj : pyIndex rest e with
        | none => rw [hj] at hs; simp at hs
        | some j => rfl

theorem mapO_pyIndex_roundtrip (M : List Element) :
    ∀ L : List Element, (∀ x ∈ L, x ∈ M) →
      ∃ ids, mapO (pyIndex M) L = some ids ∧
        mapO (fun i => M[i]?) ids = some L := by
  intro L
  induction L with
  | nil => intro _; exact ⟨[], rfl, rfl⟩
  | cons x rest ih =>
    intro h
    obtain ⟨ids, h1, h2⟩ := ih (fun y hy => h y (List.mem_cons_of_mem _ hy))
    have hx : (pyIndex M x).isSome := pyIndex_isSome x M (h x (List.mem_cons_self _ _))
    cases hix : pyIndex M x with
    | none => rw [hix] at hx; simp at hx
    | some i =>
      refine ⟨i :: ids, ?_, ?_⟩
      · simp [mapO, hix, h1]
      · simp [mapO, pyIndex_get x M i hix, h2]

theorem ifEmpty_list {α : Type} (l : List α) :
    (if l.isEmpty then ([] : List α) else l) = l := by
  cases l <;> simp

theorem snapshot_roundtrip (r : Report)
    (h : ∀ e ∈ r.firstLevelMetrics, e ∈ r.suite.context.metrics) :
    ∃ snap rep, r.get_snapshot = some snap ∧ Report.parse_snapshot snap = some rep ∧
      rep.firstLevelMetrics = r.firstLevelMetrics ∧
      rep.suite.context = r.suite.context ∧
      rep.as_dict = r.as_dict ∧
      rep.id = r.id ∧ rep.timestamp = r.timestamp ∧ rep.metadata = r.metadata ∧
      rep.tags = r.tags ∧ rep.options = r.options := by
  obtain ⟨ids, h1, h2⟩ := mapO_pyIndex_roundtrip r.suite.context.metrics r.firstLevelMetrics h
  have hsnap : r.get_snapshot = some
      { id := r.id
        timestamp := r.timestamp
        metadata := r.metadata
        tags := r.tags
        options := r.options
        suite := ⟨r.suite.context.metrics, r.suite.context.results⟩
        metrics_ids := ids } := by
    simp only [Report.get_snapshot]
    rw [h1]
    rfl
  have hparse : Report.parse_snapshot
      { id := r.id
        timestamp := r.timestamp
        metadata := r.metadata
        tags := r.tags
        options := r.options
        suite := ⟨r.suite.context.metrics, r.suite.context.results⟩
        metrics_ids := ids } = some
      { metrics := r.firstLevelMetrics.map ReportItem.ofElement
        firstLevelMetrics := r.firstLevelMetrics
        suite := ⟨[], ⟨r.suite.context.metrics, r.suite.context.results⟩⟩
        id := r.id
        timestamp := r.timestamp
        metadata := if r.metadata.isEmpty then [] else r.metadata
        tags := if r.tags.isEmpty then [] else r.tags
        options := r.options } := by
    simp only [Report.parse_snapshot, SuitePayload.to_context]
    rw [h2]
    rfl
  exact ⟨_, _, hsnap, hparse, rfl, rfl, rfl, rfl, rfl,
    ifEmpty_list r.metadata, ifEmpty_list r.tags, rfl⟩

theorem run_ok_first_level_in_context (cfg : List ReportItem) (opts : Nat) (tsv : Int)
    (idn : Nat) (md : Metadata) (tags : List String)
    (compute : Element → InputData → MetricResult) (ref : Option Data) (cur : Data)
    (cm : Option ColumnMapping) (r : Report)
    (h : runReport (mkReport cfg opts tsv idn md tags) compute ref (some cur) cm =
      (r, none)) :
    ∀ e ∈ r.firstLevelMetrics, e ∈ r.suite.context.metrics := by
  rcases hx : expandItems (process_columns cur (cm.getD 0)) ⟨ref, cur⟩
      ⟨(mkReport cfg opts tsv idn md tags).firstLevelMetrics,
       (mkReport cfg opts tsv idn md tags).suite.reset,
       (mkReport cfg opts tsv idn md tags).metadata⟩
      (mkReport cfg opts tsv idn md tags).metrics with ⟨st, err⟩
  cases err with
  | some e =>
    have hrr := runReport_error_state _ compute ref cur cm _ _ hx
    rw [hrr] at h
    cases h
  | none =>
    have hrr := runReport_ok_state _ compute ref cur cm _ hx
    rw [hrr] at h
    injection h with h1 h2
    subst h1
    intro e he
    obtain ⟨⟨ext, hfl, hmem⟩, _⟩ := expandItems_invariant _ _ _ _ _ _ hx
    rw [hfl] at he
    simp only [mkReport, List.nil_append] at he
    exact hmem e he

/-- C1: the snapshot round-trip law — for every report that completed
a run, capturing and restoring yields a report with equal `as_dict`
output, an identical first-level unit list in the same order, and
equal id, timestamp, metadata, tags and options. -/
theorem c1_round_trip (cfg : List ReportItem) (opts : Nat) (tsv : Int) (idn : Nat)
    (md : Metadata) (tags : List String) (compute : Element → InputData → MetricResult)
    (ref : Option Data) (cur : Data) (cm : Option ColumnMapping) (r : Report)
    (h : runReport (mkReport cfg opts tsv idn md tags) compute ref (some cur) cm =
      (r, none)) :
    ∃ snap rep, r.get_snapshot = some snap ∧ Report.parse_snapshot snap = some rep ∧
      rep.as_dict = r.as_dict ∧
      rep.firstLevelMetrics = r.firstLevelMetrics ∧
      rep.id = r.id ∧ rep.timestamp = r.timestamp ∧ rep.metadata = r.metadata ∧
      rep.tags = r.tags ∧ rep.options = r.options := by
  obtain ⟨snap, rep, hs, hp, hfl, _, hdict, hid, hts, hmd, htg, hop⟩ :=
    snapshot_roundtrip r (run_ok_first_level_in_context cfg opts tsv idn md tags
      compute ref cur cm r h)
  exact ⟨snap, rep, hs, hp, hdict, hfl, hid, hts, hmd, htg, hop⟩

/-- C1 witness at a concrete one-metric report. -/
theorem c1_round_trip_witness :
    ∃ snap rep,
      Report.get_snapshot
        (runReport (mkReport [.metric ⟨"WitA", 3⟩] 0 9 4 [] ["t"]) fixCompute none
          (some ["age"]) none).1 = some snap ∧
      Report.parse_snapshot snap = some rep ∧
      rep.as_dict =
        (runReport (mkReport [.metric ⟨"WitA", 3⟩] 0 9 4 [] ["t"]) fixCompute none
          (some ["age"]) none).1.as_dict ∧
      rep.firstLevelMetrics =
        (runReport (mkReport [.metric ⟨"WitA", 3⟩] 0 9 4 [] ["t"]) fixCompute none
          (some ["age"]) none).1.firstLevelMetrics ∧
      rep.id =
        (runReport (mkReport [.metric ⟨"WitA", 3⟩] 0 9 4 [] ["t"]) fixCompute none
          (some ["age"]) none).1.id ∧
      rep.timestamp =
        (runReport (mkReport [.metric ⟨"WitA", 3⟩] 0 9 4 [] ["t"]) fixCompute none
          (some ["age"]) none).1.timestamp ∧
      rep.metadata =
        (runReport (mkReport [.metric ⟨"WitA", 3⟩] 0 9 4 [] ["t"]) fixCompute none
          (some ["age"]) none).1.metadata ∧
      rep.tags =
        (runReport (mkReport [.metric ⟨"WitA", 3⟩] 0 9 4 [] ["t"]) fixCompute none
          (some ["age"]) none).1.tags ∧
      rep.options =
        (runReport (mkReport [.metric ⟨"WitA", 3⟩] 0 9 4 [] ["t"]) fixCompute none
          (some ["age"]) none).1.options :=
  c1_round_trip [.metric ⟨"WitA", 3⟩] 0 9 4 [] ["t"] fixCompute none ["age"] none _ rfl

/-! ## as_pandas lemmas, C7 and C9 -/

theorem flatten_map_singleton {α β : Type} (f : α → β) (l : List α) :
    (l.map (fun a => [f a])).flatten = l.map f := by
  induction l with
  | nil => rfl
  | cons a rest ih => simp [ih]

theorem dappend_once (g : String) (df : DataFrame) (init : List DataFrame) :
    dappend [(g, init)] g df = [(g, init ++ [df])] := by
  simp [dappend, dget?, dinsert]

theorem dappend_foldl_single (g : String) : ∀ (dfs : List DataFrame) (init : List DataFrame),
    dfs.foldl (fun a df => dappend a g df) [(g, init)] = [(g, init ++ dfs)] := by
  intro dfs
  induction dfs with
  | nil => intro init; simp
  | cons df rest ih =>
    intro init
    simp only [List.foldl_cons]
    rw [dappend_once, ih, List.append_assoc]
    rfl

theorem dappend_foldl_nil (g : String) (dfs : List DataFrame) :
    dfs.foldl (fun a df => dappend a g df) [] =
      if dfs.isEmpty then [] else [(g, dfs)] := by
  cases dfs with
  | nil => rfl
  | cons df rest =>
    simp only [List.foldl_cons, List.isEmpty_cons, Bool.false_eq_true, if_false]
    have h0 : dappend [] g df = [(g, [df])] := by simp [dappend, dget?, dinsert]
    rw [h0, dappend_foldl_single]
    rfl

theorem asPandasGroups_some (ctx : Context) (g : String) :
    ∀ (fl : List Element) (acc : List (String × List DataFrame)),
      (∀ e ∈ fl, (Element.get_id e).isSome) →
      asPandasGroups ctx (some g) fl acc =
        .ok (((fl.filter (fun e => decide (Element.get_id e = some g))).map
          (renderPandas ctx)).foldl (fun a df => dappend a g df) acc) := by
  intro fl
  induction fl with
  | nil => intro acc _; rfl
  | cons e rest ih =>
    intro acc hm
    cases e with
    | notMetric t =>
      have := hm _ (List.mem_cons_self _ _)
      simp [Element.get_id] at this
    | metric m =>
      by_cases hg : m.mid = g
      · have hcond : decide (Element.get_id (Element.metric m) = some g) = true := by
          simp [Element.get_id, hg]
        simp only [asPandasGroups, if_pos hg]
        rw [ih _ (fun x hx => hm x (List.mem_cons_of_mem _ hx))]
        rw [List.filter_cons, hcond]
        simp only [if_true, List.map_cons, List.foldl_cons, hg]
      · have hcond : decide (Element.get_id (Element.metric m) = some g) = false := by
          simp [Element.get_id, hg]
        simp only [asPandasGroups, if_neg hg]
        rw [ih _ (fun x hx => hm x (List.mem_cons_of_mem _ hx))]
        rw [List.filter_cons, hcond]
        simp only [Bool.false_eq_true, if_false]

/-- C7: `as_pandas` with a group argument matching no first-level unit
identifier fails with the unknown-group (LookupError-class) error; with
a matching group it returns the rendered table of exactly that group's
first-level units. -/
theorem c7_as_pandas_group (r : Report) (g : String)
    (hm : ∀ e ∈ r.firstLevelMetrics, (Element.get_id e).isSome) :
    ((∀ e ∈ r.firstLevelMetrics, Element.get_id e ≠ some g) →
      r.as_pandas (some g) = .error (.groupNotFound g)) ∧
    ((∃ e ∈ r.firstLevelMetrics, Element.get_id e = some g) →
      r.as_pandas (some g) =
        .ok (.single (groupTable r.suite.context r.firstLevelMetrics g))) := by
  constructor
  · intro hnone
    have hfil : r.firstLevelMetrics.filter
        (fun e => decide (Element.get_id e = some g)) = [] := by
      rw [List.filter_eq_nil_iff]
      intro e he
      simp [hnone e he]
    have hgr := asPandasGroups_some r.suite.context g r.firstLevelMetrics [] hm
    rw [hfil] at hgr
    simp only [List.map_nil, List.foldl_nil] at hgr
    simp only [Report.as_pandas, asPandasCore]
    rw [hgr]
    rfl
  · intro ⟨e, he, hge⟩
    have hgr := asPandasGroups_some r.suite.context g r.firstLevelMetrics [] hm
    rw [dappend_foldl_nil] at hgr
    have hne : (r.firstLevelMetrics.filter
        (fun e => decide (Element.get_id e = some g))).isEmpty = false := by
      rw [List.isEmpty_eq_false_iff_exists_mem]
      exact ⟨e, List.mem_filter.mpr ⟨he, by simp [hge]⟩⟩
    rw [show ((r.firstLevelMetrics.filter
        (fun e => decide (Element.get_id e = some g))).map
          (renderPandas r.suite.context)).isEmpty =
        (r.firstLevelMetrics.filter
          (fun e => decide (Element.get_id e = some g))).isEmpty from by
      cases r.firstLevelMetrics.filter (fun e => decide (Element.get_id e = some g)) <;> rfl]
      at hgr
    rw [hne] at hgr
    simp only [Bool.false_eq_true, if_false] at hgr
    simp only [Report.as_pandas, asPandasCore]
    rw [hgr]
    have htab : ((r.firstLevelMetrics.filter
        (fun e => decide (Element.get_id e = some g))).map
          (renderPandas r.suite.context)).flatten =
        groupTable r.suite.context r.firstLevelMetrics g := by
      simp only [renderPandas, groupTable]
      exact flatten_map_singleton (fun e => (e, r.suite.context.getResult e)) _
    simp [dget?, htab]

/-- C7 witness: a concrete two-metric report, with one unknown and one
known group request. -/
theorem c7_as_pandas_group_witness :
    c7Rep.as_pandas (some "Missing") = .error (.groupNotFound "Missing") ∧
    c7Rep.as_pandas (some "MetricA") =
      .ok (.single (groupTable c7Rep.suite.context c7Rep.firstLevelMetrics "MetricA")) :=
  ⟨(c7_as_pandas_group c7Rep "Missing" (by decide)).1 (by decide),
   (c7_as_pandas_group c7Rep "MetricA" (by decide)).2
     ⟨elemA, by decide, by decide⟩⟩

theorem asPandasGroups_none_keys (ctx : Context) :
    ∀ (fl : List Element) (acc : List (String × List DataFrame)),
      (∀ e ∈ fl, (Element.get_id e).isSome) →
      ∃ gs, asPandasGroups ctx none fl acc = .ok gs ∧
        dkeys gs = dedupFirstAux (dkeys acc) (fl.filterMap Element.get_id) := by
  intro fl
  induction fl with
  | nil => intro acc _; exact ⟨acc, rfl, rfl⟩
  | cons e rest ih =>
    intro acc hm
    cases e with
    | notMetric t =>
      have := hm _ (List.mem_cons_self _ _)
      simp [Element.get_id] at this
    | metric m =>
      obtain ⟨gs, hgs, hkeys⟩ :=
        ih (dappend acc m.mid (renderPandas ctx (.metric m)))
          (fun x hx => hm x (List.mem_cons_of_mem _ hx))
      refine ⟨gs, hgs, ?_⟩
      rw [hkeys]
      simp only [List.filterMap_cons, Element.get_id]
      by_cases hmem : m.mid ∈ dkeys acc
      · have hsome : (dget? acc m.mid).isSome := (dget?_isSome_iff _ _).mpr hmem
        rw [show dkeys (dappend acc m.mid (renderPandas ctx (.metric m))) = dkeys acc from by
          rw [dappend, dkeys_dinsert, if_pos hsome]]
        rw [show dedupFirstAux (dkeys acc) (m.mid :: rest.filterMap Element.get_id) =
            dedupFirstAux (dkeys acc) (rest.filterMap Element.get_id) from by
          rw [dedupFirstAux, if_pos hmem]]
      · have hsome : ¬(dget? acc m.mid).isSome = true := fun hc =>
          hmem ((dget?_isSome_iff _ _).mp hc)
        rw [show dkeys (dappend acc m.mid (renderPandas ctx (.metric m))) =
            dkeys acc ++ [m.mid] from by
          rw [dappend, dkeys_dinsert, if_neg hsome]]
        rw [show dedupFirstAux (dkeys acc) (m.mid :: rest.filterMap Element.get_id) =
            dedupFirstAux (dkeys acc ++ [m.mid]) (rest.filterMap Element.get_id) from by
          rw [dedupFirstAux, if_neg hmem]]

/-- C9 counterexample: a completed report with no first-level units
vacuously has all units sharing one identifier, yet `as_pandas` with
no group returns an (empty) dictionary, not a bare DataFrame. -/
theorem c9_counterexample_empty_report :
    c9EmptyRun.firstLevelMetrics = [] ∧
    (∀ e ∈ c9EmptyRun.firstLevelMetrics, Element.get_id e = some "SharedId") ∧
    c9EmptyRun.as_pandas none = .ok (.grouped []) := by
  refine ⟨rfl, ?_, rfl⟩
  intro e he
  have h0 : c9EmptyRun.firstLevelMetrics = [] := rfl
  rw [h0] at he
  exact absurd he (List.not_mem_nil e)

/-- C9 amended: for a completed report whose first-level units are all
metrics, `as_pandas` with no group returns a bare DataFrame exactly
when the number of distinct first-level identifiers is one, and a
dictionary keyed by the distinct identifiers otherwise (zero or two or
more distinct identifiers). -/
theorem c9_as_pandas_single_vs_dict (r : Report)
    (hm : ∀ e ∈ r.firstLevelMetrics, (Element.get_id e).isSome) :
    ((distinctIds r).length = 1 → ∃ df, r.as_pandas none = .ok (.single df)) ∧
    ((distinctIds r).length ≠ 1 →
      ∃ gs, r.as_pandas none = .ok (.grouped gs) ∧ gs.map Prod.fst = distinctIds r) := by
  obtain ⟨gs, hgs, hkeys⟩ :=
    asPandasGroups_none_keys r.suite.context r.firstLevelMetrics [] hm
  have hkeys' : dkeys gs = distinctIds r := hkeys
  have hlen : (gs.map (fun p => (p.1, p.2.flatten))).length = (distinctIds r).length := by
    rw [← hkeys', dkeys, List.length_map, List.length_map]
  have hcore : r.as_pandas none =
      (if (gs.map (fun p => (p.1, p.2.flatten))).length = 1 then
        Except.ok (.single ((gs.map (fun p => (p.1, p.2.flatten))).headD ("", [])).2)
      else Except.ok (.grouped (gs.map (fun p => (p.1, p.2.flatten))))) := by
    simp only [Report.as_pandas, asPandasCore]
    rw [hgs]
  constructor
  · intro h1
    rw [hcore, if_pos (hlen.trans h1)]
    exact ⟨_, rfl⟩
  · intro h1
    rw [hcore, if_neg (fun hc => h1 (hlen.symm.trans hc))]
    refine ⟨_, rfl, ?_⟩
    rw [← hkeys', dkeys, List.map_map]
    rfl

/-- C9 witness at a concrete single-identifier report. -/
theorem c9_as_pandas_single_witness :
    ∃ df, c9Rep.as_pandas none = .ok (.single df) :=
  (c9_as_pandas_single_vs_dict c9Rep (by decide)).1 (by decide)

/-! ## Loader lemmas, C5 and C10 -/

theorem lastMatch_mem (p : Snapshot → Bool) :
    ∀ (files : List Snapshot) (s : Snapshot),
      lastMatch p files = some s → s ∈ files ∧ p s = true := by
  intro files
  induction files with
  | nil => intro s h; simp [lastMatch] at h
  | cons f rest ih =>
    intro s h
    simp only [lastMatch] at h
    cases hr : lastMatch p rest with
    | some x =>
      rw [hr] at h
      cases h
      obtain ⟨hm, hp⟩ := ih _ hr
      exact ⟨List.mem_cons_of_mem _ hm, hp⟩
    | none =>
      rw [hr] at h
      by_cases hp : p f
      · rw [if_pos hp] at h
        cases h
        exact ⟨List.mem_cons_self _ _, hp⟩
      · rw [if_neg hp] at h
        cases h

theorem lastMatch_isSome (p : Snapshot → Bool) :
    ∀ (files : List Snapshot) (s : Snapshot),
      s ∈ files → p s = true → (lastMatch p files).isSome := by
  intro files
  induction files with
  | nil => intro s h; cases h
  | cons f rest ih =>
    intro s h hp
    simp only [lastMatch]
    cases hr : lastMatch p rest with
    | some x => rfl
    | none =>
      rcases List.mem_cons.mp h with hh | hh
      · subst hh
        rw [if_pos hp]
        rfl
      · have := ih s hh hp
        rw [hr] at this
        simp at this

theorem loadLoop_char (date_from date_to : Option Int) :
    ∀ (files : List Snapshot) (acc res : List (Int × Report)),
      loadLoop date_from date_to acc files = .ok res →
      ∀ ts : Int, dget? res ts =
        match lastMatch (matchAt date_from date_to ts) files with
        | some s => Report.parse_snapshot s
        | none => dget? acc ts := by
  intro files
  induction files with
  | nil =>
    intro acc res h ts
    simp only [loadLoop] at h
    cases h
    rfl
  | cons file rest ih =>
    intro acc res h ts
    simp only [loadLoop] at h
    cases hp : Report.parse_snapshot file with
    | none => rw [hp] at h; cases h
    | some rep =>
      simp only [hp] at h
      simp only [lastMatch]
      by_cases hlo : skipLower date_from rep.timestamp
      · rw [if_pos hlo] at h
        have hm : matchAt date_from date_to ts file = false := by
          simp only [matchAt, hp, inRange, hlo]
          simp
        cases hr : lastMatch (matchAt date_from date_to ts) rest with
        | some x =>
          have := ih acc res h ts
          rw [hr] at this
          exact this
        | none =>
          rw [hm]
          have := ih acc res h ts
          rw [hr] at this
          simpa using this
      · rw [if_neg hlo] at h
        by_cases hhi : skipUpper date_to rep.timestamp
        · rw [if_pos hhi] at h
          have hm : matchAt date_from date_to ts file = false := by
            simp only [matchAt, hp, inRange, hhi]
            simp
          cases hr : lastMatch (matchAt date_from date_to ts) rest with
          | some x =>
            have := ih acc res h ts
            rw [hr] at this
            exact this
          | none =>
            rw [hm]
            have := ih acc res h ts
            rw [hr] at this
            simpa using this
        · rw [if_neg hhi] at h
          have hin : inRange date_from date_to rep.timestamp = true := by
            simp only [Bool.not_eq_true] at hlo hhi
            simp [inRange, hlo, hhi]
          have hm : matchAt date_from date_to ts file =
              decide (rep.timestamp = ts) := by
            simp only [matchAt, hp, hin, Bool.true_and]
          cases hr : lastMatch (matchAt date_from date_to ts) rest with
          | some x =>
            have := ih _ res h ts
            rw [hr] at this
            exact this
          | none =>
            have hacc := ih _ res h ts
            rw [hr] at hacc
            by_cases hts : rep.timestamp = ts
            · have hc : decide (rep.timestamp = ts) = true := decide_eq_true hts
              rw [hm, hc, if_pos rfl]
              rw [hacc, ← hts, dget?_dinsert_self]
              simp [hp]
            · have hc : decide (rep.timestamp = ts) = false := decide_eq_false hts
              rw [hm, hc, if_neg Bool.false_ne_true]
              rw [hacc, dget?_dinsert_ne _ _ _ _ (fun hc2 => hts hc2.symm)]

theorem loadLoop_nodup (date_from date_to : Option Int) :
    ∀ (files : List Snapshot) (acc res : List (Int × Report)),
      (dkeys acc).Nodup → loadLoop date_from date_to acc files = .ok res →
      (dkeys res).Nodup := by
  intro files
  induction files with
  | nil =>
    intro acc res hn h
    simp only [loadLoop] at h
    cases h
    exact hn
  | cons file rest ih =>
    intro acc res hn h
    simp only [loadLoop] at h
    cases hp : Report.parse_snapshot file with
    | none => rw [hp] at h; cases h
    | some rep =>
      simp only [hp] at h
      by_cases hlo : skipLower date_from rep.timestamp
      · rw [if_pos hlo] at h
        exact ih acc res hn h
      · rw [if_neg hlo] at h
        by_cases hhi : skipUpper date_to rep.timestamp
        · rw [if_pos hhi] at h
          exact ih acc res hn h
        · rw [if_neg hhi] at h
          refine ih _ res ?_ h
          rw [dkeys_dinsert]
          by_cases hs : (dget? acc rep.timestamp).isSome
          · rw [if_pos hs]
            exact hn
          · rw [if_neg hs]
            have hnm : rep.timestamp ∉ dkeys acc := fun hc =>
              hs ((dget?_isSome_iff _ _).mpr hc)
            simp [List.nodup_append, hn, hnm]

theorem matchAt_true_elim (date_from date_to : Option Int) (ts : Int) (s : Snapshot)
    (h : matchAt date_from date_to ts s = true) :
    ∃ rep, Report.parse_snapshot s = some rep ∧
      inRange date_from date_to ts = true ∧ rep.timestamp = ts := by
  cases hp : Report.parse_snapshot s with
  | none => simp [matchAt, hp] at h
  | some rep =>
    simp only [matchAt, hp, Bool.and_eq_true, decide_eq_true_eq] at h
    exact ⟨rep, rfl, h.2 ▸ h.1, h.2⟩

/-- C5: the time-series loader keeps exactly the parseable snapshots
with `date_from ≤ timestamp ≤ date_to`, both bounds inclusive and an
absent bound unbounded on its side; with equal bounds only snapshots
carrying exactly that timestamp survive, and with `date_from >
date_to` the result is empty. -/
theorem c5_load_series_range (files : List Snapshot) (date_from date_to : Option Int)
    (res : List (Int × Report))
    (h : load_time_series_data files date_from date_to = .ok res) :
    (∀ ts : Int, (dget? res ts).isSome ↔
      (inRange date_from date_to ts = true ∧
        ∃ s ∈ files, ∃ rep, Report.parse_snapshot s = some rep ∧ rep.timestamp = ts)) ∧
    (∀ a ts : Int, date_from = some a → date_to = some a →
      (dget? res ts).isSome → ts = a) ∧
    (∀ a b : Int, date_from = some a → date_to = some b → b < a → res = []) ∧
    (∀ a b ts : Int, inRange (some a) (some b) ts = true ↔ (a ≤ ts ∧ ts ≤ b)) := by
  have hchar := loadLoop_char date_from date_to files [] res h
  have hiff : ∀ ts : Int, (dget? res ts).isSome ↔
      (inRange date_from date_to ts = true ∧
        ∃ s ∈ files, ∃ rep, Report.parse_snapshot s = some rep ∧ rep.timestamp = ts) := by
    intro ts
    rw [hchar ts]
    constructor
    · intro hs
      cases hl : lastMatch (matchAt date_from date_to ts) files with
      | none => rw [hl] at hs; simp [dget?] at hs
      | some s =>
        rw [hl] at hs
        obtain ⟨hmem, hmt⟩ := lastMatch_mem _ files s hl
        obtain ⟨rep, hp, hin, hts⟩ := matchAt_true_elim date_from date_to ts s hmt
        exact ⟨hin, s, hmem, rep, hp, hts⟩
    · intro ⟨hin, s, hmem, rep, hp, hts⟩
      have hmt : matchAt date_from date_to ts s = true := by
        simp only [matchAt, hp, Bool.and_eq_true, decide_eq_true_eq]
        exact ⟨hts ▸ hin, hts⟩
      have := lastMatch_isSome _ files s hmem hmt
      cases hl : lastMatch (matchAt date_from date_to ts) files with
      | none => rw [hl] at this; simp at this
      | some s' =>
        obtain ⟨_, hmt'⟩ := lastMatch_mem _ files s' hl
        obtain ⟨rep', hp', _, _⟩ := matchAt_true_elim date_from date_to ts s' hmt'
        simp [hp']
  have hrange : ∀ a b ts : Int, inRange (some a) (some b) ts = true ↔ (a ≤ ts ∧ ts ≤ b) := by
    intro a b ts
    simp [inRange, skipLower, skipUpper, Int.not_lt]
  refine ⟨hiff, ?_, ?_, hrange⟩
  · intro a ts hf ht hs
    obtain ⟨hin, _⟩ := (hiff ts).mp hs
    rw [hf, ht] at hin
    obtain ⟨h1, h2⟩ := (hrange a a ts).mp hin
    omega
  · intro a b hf ht hba
    apply eq_nil_of_dget?_eq_none
    intro ts
    cases hd : dget? res ts with
    | none => rfl
    | some rep =>
      have hs : (dget? res ts).isSome := by rw [hd]; rfl
      obtain ⟨hin, _⟩ := (hiff ts).mp hs
      rw [hf, ht] at hin
      obtain ⟨h1, h2⟩ := (hrange a b ts).mp hin
      omega

/-- C5 witness: concrete directories with inclusive, exact-match and
empty-range bounds. -/
theorem c5_load_series_range_witness :
    ∃ res, load_time_series_data [snapEarly, snapLate] (some 5) (some 5) = .ok res ∧
      ((dget? res 5).isSome ↔
        (inRange (some 5) (some 5) 5 = true ∧
          ∃ s ∈ [snapEarly, snapLate], ∃ rep,
            Report.parse_snapshot s = some rep ∧ rep.timestamp = 5)) ∧
      (∀ ts : Int, (dget? res ts).isSome → ts = 5) ∧
      (∀ res2, load_time_series_data [snapEarly, snapLate] (some 9) (some 3) = .ok res2 →
        res2 = []) := by
  obtain ⟨res, hres⟩ : ∃ res,
      load_time_series_data [snapEarly, snapLate] (some 5) (some 5) = .ok res := ⟨_, rfl⟩
  obtain ⟨hiff, hexact, _, _⟩ :=
    c5_load_series_range [snapEarly, snapLate] (some 5) (some 5) res hres
  refine ⟨res, hres, hiff 5, fun ts hs => hexact 5 ts rfl rfl hs, ?_⟩
  intro res2 hres2
  obtain ⟨_, _, hempty, _⟩ :=
    c5_load_series_range [snapEarly, snapLate] (some 9) (some 3) res2 hres2
  exact hempty 9 3 rfl rfl (by omega)

/-- C10: the loader's result dictionary holds at most one snapshot per
timestamp; when a later directory entry carries the same timestamp as
an earlier one (both in range), the later one silently overwrites the
earlier one at that key. -/
theorem c10_one_snapshot_per_timestamp (files : List Snapshot)
    (date_from date_to : Option Int) (res : List (Int × Report))
    (h : load_time_series_data files date_from date_to = .ok res) :
    (dkeys res).Nodup ∧
    (∀ (pre mid : List Snapshot) (s₁ s₂ : Snapshot) (rep₁ rep₂ : Report),
      files = pre ++ s₁ :: mid ++ [s₂] →
      Report.parse_snapshot s₁ = some rep₁ → Report.parse_snapshot s₂ = some rep₂ →
      rep₁.timestamp = rep₂.timestamp →
      inRange date_from date_to rep₂.timestamp = true →
      dget? res rep₂.timestamp = some rep₂) := by
  refine ⟨loadLoop_nodup date_from date_to files [] res List.nodup_nil h, ?_⟩
  intro pre mid s₁ s₂ rep₁ rep₂ hfiles hp₁ hp₂ hts hin
  have hchar := loadLoop_char date_from date_to files [] res h rep₂.timestamp
  have hmt : matchAt date_from date_to rep₂.timestamp s₂ = true := by
    simp only [matchAt, hp₂]
    simp [hin]
  have hlast : lastMatch (matchAt date_from date_to rep₂.timestamp) files = some s₂ := by
    rw [hfiles]
    have : ∀ l : List Snapshot,
        lastMatch (matchAt date_from date_to rep₂.timestamp) (l ++ [s₂]) = some s₂ := by
      intro l
      induction l with
      | nil => simp [lastMatch, hmt]
      | cons x rest ih => simp [lastMatch, ih]
    have h2 : pre ++ s₁ :: mid ++ [s₂] = (pre ++ s₁ :: mid) ++ [s₂] := by
      simp
    rw [h2]
    exact this _
  rw [hlast] at hchar
  rw [hchar]
  simp [hp₂]

/-- C10 witness: two concrete snapshot files with the same timestamp —
the result holds distinct keys and maps the shared timestamp to the
later file's report. -/
theorem c10_one_snapshot_per_timestamp_witness :
    ∃ res, load_time_series_data [snapEarly, snapDup] none none = .ok res ∧
      (dkeys res).Nodup ∧
      dget? res 5 = Report.parse_snapshot snapDup := by
  obtain ⟨res, hres⟩ : ∃ res,
      load_time_series_data [snapEarly, snapDup] none none = .ok res := ⟨_, rfl⟩
  obtain ⟨hnd, hover⟩ :=
    c10_one_snapshot_per_timestamp [snapEarly, snapDup] none none res hres
  obtain ⟨rep₁, hrep₁⟩ : ∃ rep, Report.parse_snapshot snapEarly = some rep := ⟨_, rfl⟩
  obtain ⟨rep₂, hrep₂⟩ : ∃ rep, Report.parse_snapshot snapDup = some rep := ⟨_, rfl⟩
  have hts₂ : rep₂.timestamp = 5 := by
    have h0 : (Report.parse_snapshot snapDup).map Report.timestamp = some (5 : Int) := rfl
    rw [hrep₂] at h0
    simpa using h0
  have hts₁ : rep₁.timestamp = rep₂.timestamp := by
    have h0 : (Report.parse_snapshot snapEarly).map Report.timestamp = some (5 : Int) := rfl
    rw [hrep₁] at h0
    rw [hts₂]
    simpa using h0
  have := hover [] [] snapEarly snapDup rep₁ rep₂ rfl hrep₁ hrep₂ hts₁
    (by rw [hts₂]; rfl)
  rw [hts₂] at this
  exact ⟨res, hres, hnd, by rw [this, hrep₂]⟩

/-! ## Series lemmas and C6 -/

theorem seriesAllLoop_char (ts : Int) (ctx : Context) :
    ∀ (fl : List Element) (acc acc' : SeriesDict),
      seriesAllLoop ts ctx acc fl = .ok acc' →
      ∀ (m : Element) (ts' : Int), dget2? acc' m ts' =
        if ts' = ts ∧ m ∈ fl then ctx.getResult m else dget2? acc m ts' := by
  intro fl
  induction fl with
  | nil =>
    intro acc acc' h m ts'
    simp only [seriesAllLoop] at h
    cases h
    simp
  | cons e rest ih =>
    intro acc acc' h m ts'
    simp only [seriesAllLoop] at h
    cases hg : ctx.getResult e with
    | none => rw [hg] at h; cases h
    | some v =>
      simp only [hg] at h
      have hrec := ih _ _ h m ts'
      rw [hrec, dget2?_dinsert2]
      by_cases h1 : ts' = ts ∧ m ∈ rest
      · rw [if_pos h1, if_pos ⟨h1.1, List.mem_cons_of_mem _ h1.2⟩]
      · rw [if_neg h1]
        by_cases h2 : m = e ∧ ts' = ts
        · rw [if_pos h2, if_pos ⟨h2.2, h2.1 ▸ List.mem_cons_self _ _⟩, h2.1, hg]
        · rw [if_neg h2, if_neg ?_]
          intro ⟨hts, hm⟩
          rcases List.mem_cons.mp hm with hh | hh
          · exact h2 ⟨hh, hts⟩
          · exact h1 ⟨hts, hh⟩

theorem seriesAllReports_char :
    ∀ (reports : List (Int × Report)) (acc res : SeriesDict),
      (dkeys reports).Nodup →
      seriesAllReports acc reports = .ok res →
      ∀ (m : Element) (ts : Int), dget2? res m ts =
        match dget? reports ts with
        | some rep => if m ∈ rep.firstLevelMetrics
            then rep.suite.context.getResult m else dget2? acc m ts
        | none => dget2? acc m ts := by
  intro reports
  induction reports with
  | nil =>
    intro acc res _ h m ts
    simp only [seriesAllReports] at h
    cases h
    rfl
  | cons p rest ih =>
    intro acc res hn h m ts
    obtain ⟨ts₀, rep₀⟩ := p
    simp only [seriesAllReports] at h
    cases hal : seriesAllLoop ts₀ rep₀.suite.context acc rep₀.firstLevelMetrics with
    | error e => rw [hal] at h; cases h
    | ok acc₂ =>
      simp only [hal] at h
      have hinner := seriesAllLoop_char ts₀ rep₀.suite.context rep₀.firstLevelMetrics
        acc acc₂ hal
      have hn' : (dkeys rest).Nodup := by
        simp only [dkeys, List.map_cons, List.nodup_cons] at hn
        exact hn.2
      have hts₀ : ts₀ ∉ dkeys rest := by
        simp only [dkeys, List.map_cons, List.nodup_cons] at hn
        exact hn.1
      have hrest := ih acc₂ res hn' h m ts
      rw [hrest]
      by_cases hts : ts₀ = ts
      · subst hts
        have hnone : dget? rest ts₀ = none := by
          cases hd : dget? rest ts₀ with
          | none => rfl
          | some x =>
            have hsx : (dget? rest ts₀).isSome := by rw [hd]; rfl
            exact absurd ((dget?_isSome_iff _ _).mp hsx) hts₀
        have hcons : dget? ((ts₀, rep₀) :: rest) ts₀ = some rep₀ := by
          simp [dget?]
        rw [hnone, hcons, hinner m ts₀]
        by_cases hm : m ∈ rep₀.firstLevelMetrics
        · simp [hm]
        · simp [hm]
      · have hcons : dget? ((ts₀, rep₀) :: rest) ts = dget? rest ts := by
          simp [dget?, hts]
        rw [hcons, hinner m ts]
        simp [Ne.symm hts]

theorem seriesFilterLoop_char (m : Element) :
    ∀ (reports : List (Int × Report)) (acc acc' : SeriesDict),
      (dkeys reports).Nodup →
      seriesFilterLoop m acc reports = .ok acc' →
      (∀ ts : Int, dget2? acc' m ts =
        match dget? reports ts with
        | some rep => if m ∈ rep.firstLevelMetrics
            then rep.suite.context.getResult m else dget2? acc m ts
        | none => dget2? acc m ts) ∧
      (∀ (m' : Element) (ts : Int), m' ≠ m → dget2? acc' m' ts = dget2? acc m' ts) := by
  intro reports
  induction reports with
  | nil =>
    intro acc acc' _ h
    simp only [seriesFilterLoop] at h
    cases h
    exact ⟨fun ts => rfl, fun m' ts _ => rfl⟩
  | cons p rest ih =>
    intro acc acc' hn h
    obtain ⟨ts₀, rep₀⟩ := p
    simp only [seriesFilterLoop] at h
    have hn' : (dkeys rest).Nodup := by
      simp only [dkeys, List.map_cons, List.nodup_cons] at hn
      exact hn.2
    have hts₀ : ts₀ ∉ dkeys rest := by
      simp only [dkeys, List.map_cons, List.nodup_cons] at hn
      exact hn.1
    have hnone : ∀ ts : Int, ts₀ = ts → dget? rest ts = none := by
      intro ts hts
      subst hts
      cases hd : dget? rest ts₀ with
      | none => rfl
      | some x =>
        have hsx : (dget? rest ts₀).isSome := by rw [hd]; rfl
        exact absurd ((dget?_isSome_iff _ _).mp hsx) hts₀
    by_cases hmem : m ∈ rep₀.firstLevelMetrics
    · rw [if_pos hmem] at h
      cases hg : rep₀.suite.context.getResult m with
      | none => rw [hg] at h; cases h
      | some v =>
        simp only [hg] at h
        obtain ⟨ih1, ih2⟩ := ih _ _ hn' h
        constructor
        · intro ts
          rw [ih1 ts]
          by_cases hts : ts₀ = ts
          · subst hts
            have hcons : dget? ((ts₀, rep₀) :: rest) ts₀ = some rep₀ := by
              simp [dget?]
            rw [hnone ts₀ rfl, hcons]
            simp [hmem, dget2?_dinsert2, hg]
          · have hcons : dget? ((ts₀, rep₀) :: rest) ts = dget? rest ts := by
              simp [dget?, hts]
            rw [hcons]
            have hne : dget2? (dinsert2 acc m ts₀ v) m ts = dget2? acc m ts := by
              rw [dget2?_dinsert2, if_neg (fun hc => hts hc.2.symm)]
            simp only [hne]
        · intro m' ts hne
          rw [ih2 m' ts hne, dget2?_dinsert2, if_neg (fun hc => hne hc.1)]
    · rw [if_neg hmem] at h
      obtain ⟨ih1, ih2⟩ := ih _ _ hn' h
      refine ⟨?_, ih2⟩
      intro ts
      rw [ih1 ts]
      by_cases hts : ts₀ = ts
      · subst hts
        have hcons : dget? ((ts₀, rep₀) :: rest) ts₀ = some rep₀ := by
          simp [dget?]
        rw [hnone ts₀ rfl, hcons]
        simp [hmem]
      · have hcons : dget? ((ts₀, rep₀) :: rest) ts = dget? rest ts := by
          simp [dget?, hts]
        rw [hcons]

theorem seriesFilterMetrics_char (reports : List (Int × Report))
    (hn : (dkeys reports).Nodup) :
    ∀ (ms : List Element) (acc res : SeriesDict),
      seriesFilterMetrics reports acc ms = .ok res →
      ∀ (m : Element) (ts : Int), dget2? res m ts =
        if m ∈ ms then
          (match dget? reports ts with
          | some rep => if m ∈ rep.firstLevelMetrics
              then rep.suite.context.getResult m else dget2? acc m ts
          | none => dget2? acc m ts)
        else dget2? acc m ts := by
  intro ms
  induction ms with
  | nil =>
    intro acc res h m ts
    simp only [seriesFilterMetrics] at h
    cases h
    simp
  | cons m₀ rest ih =>
    intro acc res h m ts
    simp only [seriesFilterMetrics] at h
    cases hfl : seriesFilterLoop m₀ acc reports with
    | error e => rw [hfl] at h; cases h
    | ok acc₂ =>
      simp only [hfl] at h
      obtain ⟨hc1, hc2⟩ := seriesFilterLoop_char m₀ reports acc acc₂ hn hfl
      have hrest := ih acc₂ res h m ts
      rw [hrest]
      by_cases hm0 : m = m₀
      · subst hm0
        by_cases hmem : m ∈ rest
        · rw [if_pos hmem, if_pos (List.mem_cons_of_mem _ hmem)]
          rw [hc1 ts]
          cases hd : dget? reports ts with
          | some rep =>
            by_cases hfl2 : m ∈ rep.firstLevelMetrics
            · simp [hfl2]
            · simp [hfl2]
          | none => simp
        · rw [if_neg hmem, if_pos (List.mem_cons_self _ _)]
          exact hc1 ts
      · have heq : dget2? acc₂ m ts = dget2? acc m ts := hc2 m ts hm0
        by_cases hmem : m ∈ rest
        · rw [if_pos hmem, if_pos (List.mem_cons_of_mem _ hmem), heq]
        · rw [if_neg hmem, if_neg ?_, heq]
          intro hc
          rcases List.mem_cons.mp hc with h' | h'
          · exact hm0 h'
          · exact hmem h'

/-- C6 counterexample: a snapshot whose full unit list contains the
requested metric (with a stored Result) while its first-level list
does not — the snapshot is loaded, yet `load_metric_time_series`
contributes no entry for it, so matching is against the first-level
list, not the unit list. -/
theorem c6_counterexample_internal_unit :
    (∃ rep, Report.parse_snapshot c6Snap = some rep ∧
      elemB ∈ rep.suite.context.metrics ∧ rep.firstLevelMetrics = [elemA]) ∧
    load_metric_time_series [c6Snap] none none (some [elemB]) = .ok [] := by
  constructor
  · refine ⟨_, rfl, ?_, rfl⟩
    decide
  · rfl

/-- C6 amended: with a non-empty metrics filter, exactly the loaded
snapshots whose *first-level* list contains a requested unit (by
identity) contribute an entry, whose value is that snapshot's stored
Result for the unit, read after rebinding the unit's Context to that
snapshot; with no filter every first-level unit of every loaded
snapshot contributes its own snapshot's Result. -/
theorem c6_series_filter_first_level (files : List Snapshot)
    (date_from date_to : Option Int) (ms : List Element) (res : SeriesDict)
    (h : load_metric_time_series files date_from date_to (some ms) = .ok res) :
    ∃ reports, load_time_series_data files date_from date_to = .ok reports ∧
      (∀ (m : Element) (ts : Int), dget2? res m ts =
        match dget? reports ts with
        | some rep => if m ∈ ms ∧ m ∈ rep.firstLevelMetrics
            then rep.suite.context.getResult m else none
        | none => none) ∧
      (∀ res₂, load_metric_time_series files date_from date_to none = .ok res₂ →
        ∀ (m : Element) (ts : Int), dget2? res₂ m ts =
          match dget? reports ts with
          | some rep => if m ∈ rep.firstLevelMetrics
              then rep.suite.context.getResult m else none
          | none => none) := by
  unfold load_metric_time_series at h
  cases hl : load_time_series_data files date_from date_to with
  | error e => rw [hl] at h; cases h
  | ok reports =>
    simp only [hl] at h
    have hn := loadLoop_nodup date_from date_to files [] reports List.nodup_nil hl
    refine ⟨reports, rfl, ?_, ?_⟩
    · intro m ts
      have hch := seriesFilterMetrics_char reports hn ms [] res h m ts
      rw [hch]
      by_cases hms : m ∈ ms
      · rw [if_pos hms]
        cases hd : dget? reports ts with
        | some rep =>
          by_cases hfl2 : m ∈ rep.firstLevelMetrics
          · simp [hfl2, hms]
          · simp [hfl2, hms, dget2?_nil]
        | none => simp [dget2?_nil]
      · rw [if_neg hms]
        cases hd : dget? reports ts with
        | some rep => simp [hms, dget2?_nil]
        | none => simp [dget2?_nil]
    · intro res₂ h₂ m ts
      unfold load_metric_time_series at h₂
      simp only [hl] at h₂
      have hch := seriesAllReports_char reports [] res₂ hn h₂ m ts
      rw [hch]
      cases hd : dget? reports ts with
      | some rep =>
        by_cases hfl2 : m ∈ rep.firstLevelMetrics
        · simp [hfl2]
        · simp [hfl2, dget2?_nil]
      | none => simp [dget2?_nil]

/-- C6 witness at a concrete singleton directory and filter. -/
theorem c6_series_filter_first_level_witness :
    ∃ reports, load_time_series_data [snapEarly] none none = .ok reports ∧
      (∀ (m : Element) (ts : Int),
        dget2? [(elemA, [((5 : Int), (10 : MetricResult))])] m ts =
          match dget? reports ts with
          | some rep => if m ∈ [elemA] ∧ m ∈ rep.firstLevelMetrics
              then rep.suite.context.getResult m else none
          | none => none) ∧
      (∀ res₂, load_metric_time_series [snapEarly] none none none = .ok res₂ →
        ∀ (m : Element) (ts : Int), dget2? res₂ m ts =
          match dget? reports ts with
          | some rep => if m ∈ rep.firstLevelMetrics
              then rep.suite.context.getResult m else none
          | none => none) :=
  c6_series_filter_first_level [snapEarly] none none [elemA]
    [(elemA, [((5 : Int), (10 : MetricResult))])] rfl
